import Mathlib

/-!
Verification of the FileShare share-record lifecycle (src/app.py).

Shallow embedding: the SQLite table `files` is a list of rows, the uploads
directory is a list of stored file names, and timestamps are integers
counted in hours.  Each Flask handler becomes a pure function from its
request parameters and the server state to an outcome together with the
successor state; the on-response-close cleanup of a one-time download is
folded into the download step, since it runs before the request cycle for
that id can be observed again.
-/

namespace FileShare

/-- One row of the `files` table (CREATE TABLE in app.py). -/
structure ShareRecord where
  id : String
  stored_name : String
  original_name : String
  size_bytes : Nat
  mime : Option String
  created_at : Int
  expires_at : Option Int
  one_time : Bool
  downloads : Nat
deriving DecidableEq, Repr

/-- Server state: the `files` table plus the contents of the uploads
directory (the stored names of the files present on disk). -/
structure ServerState where
  db : List ShareRecord
  fs : List String
deriving DecidableEq, Repr

/-- SELECT * FROM files WHERE id=?  (first matching row). -/
def findRow : List ShareRecord → String → Option ShareRecord
  | [], _ => none
  | r :: rest, fid => if r.id == fid then some r else findRow rest fid

/-- DELETE FROM files WHERE id=?  (removes every matching row). -/
def deleteRows : List ShareRecord → String → List ShareRecord
  | [], _ => []
  | r :: rest, fid =>
    if r.id == fid then deleteRows rest fid else r :: deleteRows rest fid

/-- os.path.exists on the uploads directory. -/
def hasFile : List String → String → Bool
  | [], _ => false
  | n :: rest, name => n == name || hasFile rest name

/-- os.remove guarded by os.path.exists (no-op when the file is absent). -/
def removeFile : List String → String → List String
  | [], _ => []
  | n :: rest, name =>
    if n == name then removeFile rest name else n :: removeFile rest name

/-- f.save(path): (over)writes the file, so presence is idempotent. -/
def putFile (fs : List String) (n : String) : List String :=
  if hasFile fs n then fs else n :: fs

/-- The test `expired = expires_at and utcnow() > expires_at` of app.py:
a record is expired exactly when it has a non-null expires_at that is
strictly before the current time. -/
def expiredAt (now : Int) (r : ShareRecord) : Bool :=
  match r.expires_at with
  | none => false
  | some e => decide (e < now)

/-- app.py _delete_file_record: remove the backing file if present, then
delete the row (the finally block always runs the row deletion). -/
def delete_file_record (row : ShareRecord) (s : ServerState) : ServerState :=
  { db := deleteRows s.db row.id, fs := removeFile s.fs row.stored_name }

/-- app.py _delete_row_only: delete the row, leave storage untouched. -/
def delete_row_only (fid : String) (s : ServerState) : ServerState :=
  { s with db := deleteRows s.db fid }

/-- UPDATE files SET downloads=downloads+1 WHERE id=?  (applied to every
matching row). -/
def bumpIf (fid : String) (q : ShareRecord) : ShareRecord :=
  if q.id == fid then { q with downloads := q.downloads + 1 } else q

/-- State after the download-counter UPDATE statement. -/
def incrementDownloads (fid : String) (s : ServerState) : ServerState :=
  { s with db := s.db.map (bumpIf fid) }

/-- Outcome of GET /f/(fid): HTTP 404, or the rendered detail page (whose
error block and disabled button are shown exactly when expired is true). -/
inductive ViewOutcome
  | notFound
  | page (expired : Bool)
deriving DecidableEq, Repr

/-- app.py view_file: look the row up; 404 when absent; when expired,
delete file and row and render the expired page; otherwise render the
normal page.  The handler never consults the uploads directory. -/
def view_file (now : Int) (fid : String) (s : ServerState) :
    ViewOutcome × ServerState :=
  match findRow s.db fid with
  | none => (ViewOutcome.notFound, s)
  | some row =>
    if expiredAt now row then
      (ViewOutcome.page true, delete_file_record row s)
    else
      (ViewOutcome.page false, s)

/-- Outcome of GET /d/(fid): HTTP 404, HTTP 410, or a streamed file. -/
inductive DlOutcome
  | notFound
  | gone
  | served
deriving DecidableEq, Repr

/-- app.py download: 404 when the row is absent; 410 (after deleting file
and row) when expired; 404 (after deleting the row only) when the backing
file is missing; otherwise increment the counter, stream the file, and --
for a one-time record -- delete file and row when the response closes. -/
def download (now : Int) (fid : String) (s : ServerState) :
    DlOutcome × ServerState :=
  match findRow s.db fid with
  | none => (DlOutcome.notFound, s)
  | some row =>
    if expiredAt now row then
      (DlOutcome.gone, delete_file_record row s)
    else if hasFile s.fs row.stored_name then
      let s1 := incrementDownloads fid s
      if row.one_time then
        (DlOutcome.served, delete_file_record row s1)
      else
        (DlOutcome.served, s1)
    else
      (DlOutcome.notFound, delete_row_only fid s)

/-- Outcome of POST /upload: redirect back to the form (no file chosen),
an uncaught exception (HTTP 500), or a redirect to the new detail page. -/
inductive UpOutcome
  | noFile
  | serverError
  | redirectTo (fid : String)
deriving DecidableEq, Repr

/-- app.py upload.  Parameters mirror the request: filename is the
client-supplied name (empty when no file was chosen; its sanitized form is
stored as original_name), ext its extension, expiresForm the parsed
expires field (none when absent, in which case Werkzeug supplies the
default 24), saveOk whether f.save succeeded.  The file is written before
the INSERT; a failed save raises before any row is inserted, and an
INSERT on an already-used id violates the primary key and raises after
the file was written. -/
def upload (now : Int) (fid : String) (filename : String) (ext : String)
    (sizeOnDisk : Nat) (mime : Option String) (expiresForm : Option Int)
    (mode : String) (saveOk : Bool) (s : ServerState) :
    UpOutcome × ServerState :=
  if filename == "" then (UpOutcome.noFile, s)
  else if !saveOk then (UpOutcome.serverError, s)
  else
    let stored_name := fid ++ ext
    let fs1 := putFile s.fs stored_name
    let hours := expiresForm.getD 24
    let expires_at : Option Int :=
      if hours > 0 then some (now + min hours 168) else none
    let one_time := mode == "one"
    match findRow s.db fid with
    | some _ => (UpOutcome.serverError, { s with fs := fs1 })
    | none =>
      (UpOutcome.redirectTo fid,
       { db := s.db ++ [{ id := fid, stored_name := stored_name,
                          original_name := filename,
                          size_bytes := sizeOnDisk, mime := mime,
                          created_at := now, expires_at := expires_at,
                          one_time := one_time, downloads := 0 }],
         fs := fs1 })

/-- Ordering used by GET /recent: created_at descending. -/
def createdDesc (a b : ShareRecord) : Prop :=
  b.created_at ≤ a.created_at

instance : DecidableRel createdDesc := fun a b =>
  inferInstanceAs (Decidable (b.created_at ≤ a.created_at))

instance : IsTotal ShareRecord createdDesc :=
  ⟨fun a b => (le_total b.created_at a.created_at).imp id id⟩

instance : IsTrans ShareRecord createdDesc :=
  ⟨fun _ _ _ hab hbc => le_trans hbc hab⟩

/-- SELECT ... FROM files ORDER BY created_at DESC LIMIT 20. -/
def listRecent (db : List ShareRecord) : List ShareRecord :=
  (List.insertionSort createdDesc db).take 20

/-- app.py recent: render the twenty most recent rows; a pure read. -/
def recent (s : ServerState) : List ShareRecord × ServerState :=
  (listRecent s.db, s)

/-- The operations the HTTP layer can invoke. -/
inductive Op
  | uploadOp (now : Int) (fid filename ext : String) (size : Nat)
      (mime : Option String) (expiresForm : Option Int) (mode : String)
      (saveOk : Bool)
  | view (now : Int) (fid : String)
  | dl (now : Int) (fid : String)
  | recentOp

/-- The state transition each operation performs. -/
def step : Op → ServerState → ServerState
  | Op.uploadOp now fid filename ext size mime expiresForm mode saveOk, s =>
    (upload now fid filename ext size mime expiresForm mode saveOk s).2
  | Op.view now fid, s => (view_file now fid s).2
  | Op.dl now fid, s => (download now fid s).2
  | Op.recentOp, s => (recent s).2

/-! Helper lemmas about the row table and the uploads directory. -/

theorem findRow_id {fid : String} {r : ShareRecord} :
    ∀ {db : List ShareRecord}, findRow db fid = some r → r.id = fid := by
  intro db
  induction db with
  | nil => intro h; exact absurd h (by simp [findRow])
  | cons q rest ih =>
    intro h
    cases hq : q.id == fid <;> rw [findRow] at h <;> simp [hq] at h
    · exact ih h
    · exact h ▸ eq_of_beq hq

theorem findRow_deleteRows_self (db : List ShareRecord) (fid : String) :
    findRow (deleteRows db fid) fid = none := by
  induction db with
  | nil => rfl
  | cons q rest ih =>
    cases hq : q.id == fid <;> simp [deleteRows, hq, findRow, ih]

theorem findRow_deleteRows_ne {id fid : String} (h : id ≠ fid)
    (db : List ShareRecord) :
    findRow (deleteRows db fid) id = findRow db id := by
  induction db with
  | nil => rfl
  | cons q rest ih =>
    cases hq : q.id == fid
    · simp [deleteRows, hq, findRow, ih]
    · have hqid : (q.id == id) = false := by
        have hq' := eq_of_beq hq
        exact beq_eq_false_iff_ne.mpr (fun hc => h (hq' ▸ hc).symm)
      simp [deleteRows, hq, findRow, hqid, ih]

theorem bumpIf_id (fid : String) (q : ShareRecord) :
    (bumpIf fid q).id = q.id := by
  rw [bumpIf]; split <;> rfl

theorem findRow_map_bump (fid id : String) (db : List ShareRecord) :
    findRow (db.map (bumpIf fid)) id = (findRow db id).map (bumpIf fid) := by
  induction db with
  | nil => rfl
  | cons q rest ih =>
    rw [List.map_cons, findRow, findRow, bumpIf_id]
    cases hq : q.id == id <;> simp [hq, ih]

theorem findRow_append_some {db1 : List ShareRecord} {id : String}
    {r : ShareRecord} (h : findRow db1 id = some r) (db2 : List ShareRecord) :
    findRow (db1 ++ db2) id = some r := by
  induction db1 with
  | nil => exact absurd h (by simp [findRow])
  | cons q rest ih =>
    cases hq : q.id == id <;> rw [findRow] at h <;>
      simp [hq] at h <;> rw [List.cons_append, findRow] <;> simp [hq]
    · exact ih h
    · exact h

theorem findRow_append_none {db1 : List ShareRecord} {id : String}
    (h : findRow db1 id = none) (db2 : List ShareRecord) :
    findRow (db1 ++ db2) id = findRow db2 id := by
  induction db1 with
  | nil => rfl
  | cons q rest ih =>
    cases hq : q.id == id <;> rw [findRow] at h <;> simp [hq] at h
    rw [List.cons_append, findRow]
    simp [hq]
    exact ih h

theorem hasFile_removeFile_self (fs : List String) (n : String) :
    hasFile (removeFile fs n) n = false := by
  induction fs with
  | nil => rfl
  | cons m rest ih =>
    cases hm : m == n <;> simp [removeFile, hm, hasFile, ih]

theorem hasFile_putFile_self (fs : List String) (n : String) :
    hasFile (putFile fs n) n = true := by
  rw [putFile]
  cases hf : hasFile fs n
  · simp [hasFile]
  · simpa using hf

/-- The row that a successful upload inserts (abbreviation used by the
characterization lemma below). -/
def uploadRec (now : Int) (fid filename ext : String) (size : Nat)
    (mime : Option String) (expiresForm : Option Int) (mode : String) :
    ShareRecord :=
  { id := fid, stored_name := fid ++ ext, original_name := filename,
    size_bytes := size, mime := mime, created_at := now,
    expires_at := if expiresForm.getD 24 > 0
      then some (now + min (expiresForm.getD 24) 168) else none,
    one_time := mode == "one", downloads := 0 }

theorem upload_success (now : Int) (fid filename ext : String) (size : Nat)
    (mime : Option String) (expiresForm : Option Int) (mode : String)
    (s : ServerState) (hname : filename ≠ "")
    (hfresh : findRow s.db fid = none) :
    upload now fid filename ext size mime expiresForm mode true s =
      (UpOutcome.redirectTo fid,
       { db := s.db ++
           [uploadRec now fid filename ext size mime expiresForm mode],
         fs := putFile s.fs (fid ++ ext) }) := by
  have hbeq : (filename == "") = false := beq_eq_false_iff_ne.mpr hname
  rw [upload]
  simp [hbeq, hfresh, uploadRec]

theorem upload_save_fail (now : Int) (fid filename ext : String)
    (size : Nat) (mime : Option String) (expiresForm : Option Int)
    (mode : String) (s : ServerState) (hname : filename ≠ "") :
    upload now fid filename ext size mime expiresForm mode false s =
      (UpOutcome.serverError, s) := by
  have hbeq : (filename == "") = false := beq_eq_false_iff_ne.mpr hname
  rw [upload]
  simp [hbeq]

theorem findRow_upload_success (now : Int) (fid filename ext : String)
    (size : Nat) (mime : Option String) (expiresForm : Option Int)
    (mode : String) (s : ServerState) (hname : filename ≠ "")
    (hfresh : findRow s.db fid = none) :
    findRow
      (upload now fid filename ext size mime expiresForm mode true s).2.db
      fid = some (uploadRec now fid filename ext size mime expiresForm mode)
    := by
  rw [upload_success now fid filename ext size mime expiresForm mode s hname
    hfresh]
  rw [findRow_append_none hfresh]
  simp [findRow, uploadRec]

/-! Concrete records and states used by the witnesses below. -/

/-- A never-expiring standard record. -/
def wRec : ShareRecord :=
  { id := "a", stored_name := "a.txt", original_name := "n.txt",
    size_bytes := 3, mime := none, created_at := 0, expires_at := none,
    one_time := false, downloads := 0 }

/-- Claim C2: for every upload, Create stores expires_at as null when the
requested expiryHours is 0, and as created_at plus min(expiryHours, 168)
hours when expiryHours is positive; any requested value above 168 hours is
silently clamped to 168, never rejected. -/
theorem upload_expiry_clamp (now : Int) (fid filename ext : String)
    (size : Nat) (mime : Option String) (hrs : Int) (mode : String)
    (s : ServerState) (hname : filename ≠ "")
    (hfresh : findRow s.db fid = none) :
    ∃ r : ShareRecord,
      (upload now fid filename ext size mime (some hrs) mode true s).1 =
        UpOutcome.redirectTo fid ∧
      findRow
        (upload now fid filename ext size mime (some hrs) mode true s).2.db
        fid = some r ∧
      r.created_at = now ∧
      (hrs = 0 → r.expires_at = none) ∧
      (0 < hrs → r.expires_at = some (r.created_at + min hrs 168)) ∧
      (168 < hrs → r.expires_at = some (r.created_at + 168)) := by
  refine ⟨uploadRec now fid filename ext size mime (some hrs) mode,
    ?_, ?_, rfl, ?_, ?_, ?_⟩
  · rw [upload_success now fid filename ext size mime (some hrs) mode s
      hname hfresh]
  · exact findRow_upload_success now fid filename ext size mime (some hrs)
      mode s hname hfresh
  · intro h0
    simp [uploadRec, h0]
  · intro hpos
    simp [uploadRec, hpos]
  · intro hbig
    have hpos : (0:Int) < hrs := lt_trans (by norm_num) hbig
    simp only [uploadRec, Option.getD_some, hpos, if_pos]
    rw [min_eq_right (le_of_lt hbig)]

/-- Claim C2 witness: a concrete upload requesting 500 hours. -/
theorem upload_expiry_clamp_witness :
    ("f.txt" : String) ≠ "" ∧
    findRow (ServerState.mk [] []).db "b" = none ∧
    ∃ r : ShareRecord,
      (upload 0 "b" "f.txt" ".txt" 3 none (some 500) "one" true
        (ServerState.mk [] [])).1 = UpOutcome.redirectTo "b" ∧
      findRow (upload 0 "b" "f.txt" ".txt" 3 none (some 500) "one" true
        (ServerState.mk [] [])).2.db "b" = some r ∧
      r.created_at = 0 ∧
      ((500:Int) = 0 → r.expires_at = none) ∧
      ((0:Int) < 500 → r.expires_at = some (r.created_at + min 500 168)) ∧
      ((168:Int) < 500 → r.expires_at = some (r.created_at + 168)) :=
  ⟨by decide, by decide,
   upload_expiry_clamp 0 "b" "f.txt" ".txt" 3 none 500 "one"
     (ServerState.mk [] []) (by decide) (by decide)⟩

/-- Claim C9: an upload whose submitted expires value is negative still
creates the record, with a null expires_at, rather than being rejected. -/
theorem upload_negative_expiry (now : Int) (fid filename ext : String)
    (size : Nat) (mime : Option String) (hrs : Int) (mode : String)
    (s : ServerState) (hneg : hrs < 0) (hname : filename ≠ "")
    (hfresh : findRow s.db fid = none) :
    ∃ r : ShareRecord,
      (upload now fid filename ext size mime (some hrs) mode true s).1 =
        UpOutcome.redirectTo fid ∧
      findRow
        (upload now fid filename ext size mime (some hrs) mode true s).2.db
        fid = some r ∧
      r.expires_at = none := by
  refine ⟨uploadRec now fid filename ext size mime (some hrs) mode,
    ?_, ?_, ?_⟩
  · rw [upload_success now fid filename ext size mime (some hrs) mode s
      hname hfresh]
  · exact findRow_upload_success now fid filename ext size mime (some hrs)
      mode s hname hfresh
  · have hnp : ¬ ((0:Int) < hrs) := not_lt.mpr (le_of_lt hneg)
    simp [uploadRec, hnp]

/-- Claim C9 witness: a concrete upload requesting -2 hours. -/
theorem upload_negative_expiry_witness :
    (-2:Int) < 0 ∧ ("f.txt" : String) ≠ "" ∧
    findRow (ServerState.mk [] []).db "b" = none ∧
    ∃ r : ShareRecord,
      (upload 0 "b" "f.txt" ".txt" 3 none (some (-2)) "standard" true
        (ServerState.mk [] [])).1 = UpOutcome.redirectTo "b" ∧
      findRow (upload 0 "b" "f.txt" ".txt" 3 none (some (-2)) "standard" true
        (ServerState.mk [] [])).2.db "b" = some r ∧
      r.expires_at = none :=
  ⟨by decide, by decide, by decide,
   upload_negative_expiry 0 "b" "f.txt" ".txt" 3 none (-2) "standard"
     (ServerState.mk [] []) (by decide) (by decide) (by decide)⟩

/-- Claim C7: when the file write fails the upload raises before the
INSERT, so the state is unchanged and no row for the new id exists; when
the write succeeds, the inserted row's backing file is present in storage
(the write strictly precedes the row insertion). -/
theorem upload_write_before_insert (now : Int) (fid filename ext : String)
    (size : Nat) (mime : Option String) (expiresForm : Option Int)
    (mode : String) (s : ServerState) (hname : filename ≠ "")
    (hfresh : findRow s.db fid = none) :
    upload now fid filename ext size mime expiresForm mode false s =
      (UpOutcome.serverError, s) ∧
    findRow
      (upload now fid filename ext size mime expiresForm mode false s).2.db
      fid = none ∧
    ∃ r : ShareRecord,
      findRow
        (upload now fid filename ext size mime expiresForm mode true s).2.db
        fid = some r ∧
      hasFile
        (upload now fid filename ext size mime expiresForm mode true s).2.fs
        r.stored_name = true := by
  have hfail := upload_save_fail now fid filename ext size mime expiresForm
    mode s hname
  refine ⟨hfail, ?_, ?_⟩
  · rw [hfail]
    exact hfresh
  · refine ⟨uploadRec now fid filename ext size mime expiresForm mode,
      findRow_upload_success now fid filename ext size mime expiresForm
        mode s hname hfresh, ?_⟩
    rw [upload_success now fid filename ext size mime expiresForm mode s
      hname hfresh]
    exact hasFile_putFile_self s.fs (fid ++ ext)

/-- Claim C7 witness: a concrete failed and a concrete successful upload. -/
theorem upload_write_before_insert_witness :
    ("f.txt" : String) ≠ "" ∧
    findRow (ServerState.mk [] []).db "b" = none ∧
    (upload 0 "b" "f.txt" ".txt" 3 none (some 1) "standard" false
        (ServerState.mk [] []) =
      (UpOutcome.serverError, ServerState.mk [] []) ∧
    findRow (upload 0 "b" "f.txt" ".txt" 3 none (some 1) "standard" false
        (ServerState.mk [] [])).2.db "b" = none ∧
    ∃ r : ShareRecord,
      findRow (upload 0 "b" "f.txt" ".txt" 3 none (some 1) "standard" true
        (ServerState.mk [] [])).2.db "b" = some r ∧
      hasFile (upload 0 "b" "f.txt" ".txt" 3 none (some 1) "standard" true
        (ServerState.mk [] [])).2.fs r.stored_name = true) :=
  ⟨by decide, by decide,
   upload_write_before_insert 0 "b" "f.txt" ".txt" 3 none (some 1) "standard"
     (ServerState.mk [] []) (by decide) (by decide)⟩

/-- Claim C10: expiry uses a strict comparison, so a record whose
expires_at equals the current time is not expired: the detail view serves
the normal page and, when the backing file exists, the download serves
the file. -/
theorem expiry_boundary_served (now : Int) (fid : String) (s : ServerState)
    (r : ShareRecord) (h1 : findRow s.db fid = some r)
    (h2 : r.expires_at = some now) :
    expiredAt now r = false ∧
    view_file now fid s = (ViewOutcome.page false, s) ∧
    (hasFile s.fs r.stored_name = true →
      (download now fid s).1 = DlOutcome.served) := by
  have hexp : expiredAt now r = false := by
    rw [expiredAt, h2]
    simp
  refine ⟨hexp, ?_, ?_⟩
  · rw [view_file, h1]
    simp [hexp]
  · intro hfs
    rw [download, h1]
    simp only [hexp, Bool.false_eq_true, if_false, hfs, if_true]
    split <;> rfl

/-- Claim C10 witness: a record expiring exactly at the current time. -/
theorem expiry_boundary_served_witness :
    findRow (ServerState.mk [{ wRec with expires_at := some 5 }]
      ["a.txt"]).db "a" = some { wRec with expires_at := some 5 } ∧
    ({ wRec with expires_at := some 5 } : ShareRecord).expires_at = some 5 ∧
    (expiredAt 5 { wRec with expires_at := some 5 } = false ∧
    view_file 5 "a" (ServerState.mk [{ wRec with expires_at := some 5 }]
        ["a.txt"]) =
      (ViewOutcome.page false,
       ServerState.mk [{ wRec with expires_at := some 5 }] ["a.txt"]) ∧
    (hasFile (ServerState.mk [{ wRec with expires_at := some 5 }]
        ["a.txt"]).fs ({ wRec with expires_at := some 5 } :
          ShareRecord).stored_name = true →
      (download 5 "a" (ServerState.mk [{ wRec with expires_at := some 5 }]
        ["a.txt"])).1 = DlOutcome.served)) :=
  ⟨by decide, by decide,
   expiry_boundary_served 5 "a"
     (ServerState.mk [{ wRec with expires_at := some 5 }] ["a.txt"])
     { wRec with expires_at := some 5 } (by decide) (by decide)⟩

/-- Claim C1: for a one-time record, the first download is served and
brings the counter to 1; once the response has completed, row and backing
file are both gone, and every later view or download of that id answers
NotFound without changing the state. -/
theorem one_time_first_download (now : Int) (fid : String) (s : ServerState)
    (r : ShareRecord) (h1 : findRow s.db fid = some r)
    (h2 : r.one_time = true) (h3 : r.downloads = 0)
    (h4 : expiredAt now r = false)
    (h5 : hasFile s.fs r.stored_name = true) :
    (download now fid s).1 = DlOutcome.served ∧
    findRow (incrementDownloads fid s).db fid =
      some { r with downloads := 1 } ∧
    findRow (download now fid s).2.db fid = none ∧
    hasFile (download now fid s).2.fs r.stored_name = false ∧
    (∀ now2, view_file now2 fid (download now fid s).2 =
      (ViewOutcome.notFound, (download now fid s).2)) ∧
    (∀ now2, download now2 fid (download now fid s).2 =
      (DlOutcome.notFound, (download now fid s).2)) := by
  have hrid : r.id = fid := findRow_id h1
  have hdl : download now fid s =
      (DlOutcome.served, delete_file_record r (incrementDownloads fid s)) := by
    rw [download, h1]
    simp [h4, h5, h2]
  have hbump : findRow (incrementDownloads fid s).db fid =
      some { r with downloads := 1 } := by
    show findRow (s.db.map (bumpIf fid)) fid = _
    rw [findRow_map_bump, h1]
    show some (bumpIf fid r) = _
    rw [bumpIf]
    simp [hrid, h3]
  have hnone : findRow (download now fid s).2.db fid = none := by
    rw [hdl]
    show findRow (deleteRows (incrementDownloads fid s).db r.id) fid = none
    rw [hrid]
    exact findRow_deleteRows_self _ fid
  have hfsgone : hasFile (download now fid s).2.fs r.stored_name = false := by
    rw [hdl]
    exact hasFile_removeFile_self _ _
  refine ⟨by rw [hdl], hbump, hnone, hfsgone, ?_, ?_⟩
  · intro now2
    generalize hs2 : (download now fid s).2 = s2 at hnone ⊢
    rw [view_file, hnone]
  · intro now2
    generalize hs2 : (download now fid s).2 = s2 at hnone ⊢
    rw [download, hnone]

/-- Claim C1 witness: a concrete one-time record downloaded once. -/
theorem one_time_first_download_witness :
    findRow (ServerState.mk [{ wRec with one_time := true }] ["a.txt"]).db
      "a" = some { wRec with one_time := true } ∧
    ({ wRec with one_time := true } : ShareRecord).one_time = true ∧
    ({ wRec with one_time := true } : ShareRecord).downloads = 0 ∧
    expiredAt 0 { wRec with one_time := true } = false ∧
    hasFile (ServerState.mk [{ wRec with one_time := true }] ["a.txt"]).fs
      ({ wRec with one_time := true } : ShareRecord).stored_name = true ∧
    ((download 0 "a"
        (ServerState.mk [{ wRec with one_time := true }] ["a.txt"])).1 =
      DlOutcome.served ∧
    findRow (incrementDownloads "a"
        (ServerState.mk [{ wRec with one_time := true }] ["a.txt"])).db "a" =
      some { { wRec with one_time := true } with downloads := 1 } ∧
    findRow (download 0 "a"
        (ServerState.mk [{ wRec with one_time := true }] ["a.txt"])).2.db
      "a" = none ∧
    hasFile (download 0 "a"
        (ServerState.mk [{ wRec with one_time := true }] ["a.txt"])).2.fs
      ({ wRec with one_time := true } : ShareRecord).stored_name = false ∧
    (∀ now2, view_file now2 "a" (download 0 "a"
        (ServerState.mk [{ wRec with one_time := true }] ["a.txt"])).2 =
      (ViewOutcome.notFound, (download 0 "a"
        (ServerState.mk [{ wRec with one_time := true }] ["a.txt"])).2)) ∧
    (∀ now2, download now2 "a" (download 0 "a"
        (ServerState.mk [{ wRec with one_time := true }] ["a.txt"])).2 =
      (DlOutcome.notFound, (download 0 "a"
        (ServerState.mk [{ wRec with one_time := true }] ["a.txt"])).2))) :=
  ⟨by decide, by decide, by decide, by decide, by decide,
   one_time_first_download 0 "a"
     (ServerState.mk [{ wRec with one_time := true }] ["a.txt"])
     { wRec with one_time := true }
     (by decide) (by decide) (by decide) (by decide) (by decide)⟩

/-- Claim C3 counterexample: on an expired record the detail view does
not answer NotFound to the caller that triggers the purge; it renders the
expired page. -/
theorem view_expired_counterexample :
    findRow (ServerState.mk [{ wRec with expires_at := some 5 }]
      ["a.txt"]).db "a" = some { wRec with expires_at := some 5 } ∧
    expiredAt 10 { wRec with expires_at := some 5 } = true ∧
    (view_file 10 "a" (ServerState.mk [{ wRec with expires_at := some 5 }]
      ["a.txt"])).1 ≠ ViewOutcome.notFound := by decide

/-- Claim C3 (amended): on a record whose expires_at is in the past, the
detail view deletes the backing file and the row as a side effect and
renders the expired page to that caller; every subsequent view or
download of the id answers NotFound without changing the state. -/
theorem view_expired_purges (now : Int) (fid : String) (s : ServerState)
    (r : ShareRecord) (h1 : findRow s.db fid = some r)
    (h2 : expiredAt now r = true) :
    (view_file now fid s).1 = ViewOutcome.page true ∧
    findRow (view_file now fid s).2.db fid = none ∧
    hasFile (view_file now fid s).2.fs r.stored_name = false ∧
    (∀ now2, view_file now2 fid (view_file now fid s).2 =
      (ViewOutcome.notFound, (view_file now fid s).2)) ∧
    (∀ now2, download now2 fid (view_file now fid s).2 =
      (DlOutcome.notFound, (view_file now fid s).2)) := by
  have hrid : r.id = fid := findRow_id h1
  have hv : view_file now fid s =
      (ViewOutcome.page true, delete_file_record r s) := by
    rw [view_file, h1]
    simp [h2]
  have hnone : findRow (view_file now fid s).2.db fid = none := by
    rw [hv]
    show findRow (deleteRows s.db r.id) fid = none
    rw [hrid]
    exact findRow_deleteRows_self _ fid
  have hfsgone : hasFile (view_file now fid s).2.fs r.stored_name
      = false := by
    rw [hv]
    exact hasFile_removeFile_self _ _
  refine ⟨by rw [hv], hnone, hfsgone, ?_, ?_⟩
  · intro now2
    generalize hs2 : (view_file now fid s).2 = s2 at hnone ⊢
    rw [view_file, hnone]
  · intro now2
    generalize hs2 : (view_file now fid s).2 = s2 at hnone ⊢
    rw [download, hnone]

/-- Claim C3 witness: a concrete expired record viewed once. -/
theorem view_expired_purges_witness :
    findRow (ServerState.mk [{ wRec with expires_at := some 5 }]
      ["a.txt"]).db "a" = some { wRec with expires_at := some 5 } ∧
    expiredAt 10 { wRec with expires_at := some 5 } = true ∧
    ((view_file 10 "a" (ServerState.mk
        [{ wRec with expires_at := some 5 }] ["a.txt"])).1 =
      ViewOutcome.page true ∧
    findRow (view_file 10 "a" (ServerState.mk
        [{ wRec with expires_at := some 5 }] ["a.txt"])).2.db "a" = none ∧
    hasFile (view_file 10 "a" (ServerState.mk
        [{ wRec with expires_at := some 5 }] ["a.txt"])).2.fs
      ({ wRec with expires_at := some 5 } : ShareRecord).stored_name
      = false ∧
    (∀ now2, view_file now2 "a" (view_file 10 "a" (ServerState.mk
        [{ wRec with expires_at := some 5 }] ["a.txt"])).2 =
      (ViewOutcome.notFound, (view_file 10 "a" (ServerState.mk
        [{ wRec with expires_at := some 5 }] ["a.txt"])).2)) ∧
    (∀ now2, download now2 "a" (view_file 10 "a" (ServerState.mk
        [{ wRec with expires_at := some 5 }] ["a.txt"])).2 =
      (DlOutcome.notFound, (view_file 10 "a" (ServerState.mk
        [{ wRec with expires_at := some 5 }] ["a.txt"])).2))) :=
  ⟨by decide, by decide,
   view_expired_purges 10 "a"
     (ServerState.mk [{ wRec with expires_at := some 5 }] ["a.txt"])
     { wRec with expires_at := some 5 } (by decide) (by decide)⟩

/-- Claim C4 counterexample: a record that is both expired and missing
its backing file downloads as Gone, not NotFound, because the expiry
check runs before the file-existence check. -/
theorem download_expired_missing_counterexample :
    findRow (ServerState.mk [{ wRec with expires_at := some 5 }] []).db
      "a" = some { wRec with expires_at := some 5 } ∧
    hasFile (ServerState.mk [{ wRec with expires_at := some 5 }] []).fs
      ({ wRec with expires_at := some 5 } : ShareRecord).stored_name
      = false ∧
    (download 10 "a" (ServerState.mk [{ wRec with expires_at := some 5 }]
      [])).1 = DlOutcome.gone ∧
    (download 10 "a" (ServerState.mk [{ wRec with expires_at := some 5 }]
      [])).1 ≠ DlOutcome.notFound := by decide

/-- Claim C4 (amended): a download answers NotFound when no row exists,
and when a non-expired row's backing file is missing; it answers Gone
when the row exists and is expired, even if the file is also missing; the
two outcomes are distinct. -/
theorem download_status_codes (now : Int) (fid : String)
    (s : ServerState) :
    (findRow s.db fid = none →
      (download now fid s).1 = DlOutcome.notFound) ∧
    (∀ r, findRow s.db fid = some r → expiredAt now r = true →
      (download now fid s).1 = DlOutcome.gone) ∧
    (∀ r, findRow s.db fid = some r → expiredAt now r = false →
      hasFile s.fs r.stored_name = false →
      (download now fid s).1 = DlOutcome.notFound) ∧
    DlOutcome.gone ≠ DlOutcome.notFound := by
  refine ⟨?_, ?_, ?_, by decide⟩
  · intro h
    rw [download, h]
  · intro r h1 h2
    rw [download, h1]
    simp [h2]
  · intro r h1 h2 h3
    rw [download, h1]
    simp [h2, h3]

/-- Claim C4 witness: the amended statement at a concrete state that has
one never-expiring row whose file is missing. -/
theorem download_status_codes_witness :
    (findRow (ServerState.mk [wRec] []).db "zz" = none →
      (download 10 "zz" (ServerState.mk [wRec] [])).1 =
        DlOutcome.notFound) ∧
    (∀ r, findRow (ServerState.mk [wRec] []).db "zz" = some r →
      expiredAt 10 r = true →
      (download 10 "zz" (ServerState.mk [wRec] [])).1 = DlOutcome.gone) ∧
    (∀ r, findRow (ServerState.mk [wRec] []).db "zz" = some r →
      expiredAt 10 r = false →
      hasFile (ServerState.mk [wRec] []).fs r.stored_name = false →
      (download 10 "zz" (ServerState.mk [wRec] [])).1 =
        DlOutcome.notFound) ∧
    DlOutcome.gone ≠ DlOutcome.notFound :=
  download_status_codes 10 "zz" (ServerState.mk [wRec] [])

/-- Claim C5 counterexample: with a non-expired row whose backing file is
missing, the detail view neither purges the row nor answers NotFound; it
renders the normal page and leaves the state unchanged. -/
theorem view_missing_file_counterexample :
    findRow (ServerState.mk [wRec] []).db "a" = some wRec ∧
    hasFile (ServerState.mk [wRec] []).fs wRec.stored_name = false ∧
    (view_file 10 "a" (ServerState.mk [wRec] [])).1 ≠
      ViewOutcome.notFound ∧
    (view_file 10 "a" (ServerState.mk [wRec] [])).2 =
      ServerState.mk [wRec] [] := by decide

/-- Claim C5 (amended): the missing-file divergence is detected by the
download handler, not the detail view: a download of a non-expired row
whose backing file is absent deletes the row only, leaves storage as is,
and answers the same NotFound used for unknown ids; the detail view
serves its page without consulting storage. -/
theorem download_missing_file_purges (now : Int) (fid : String)
    (s : ServerState) (r : ShareRecord) (h1 : findRow s.db fid = some r)
    (h2 : expiredAt now r = false)
    (h3 : hasFile s.fs r.stored_name = false) :
    (download now fid s).1 = DlOutcome.notFound ∧
    (download now fid s).2 = delete_row_only fid s ∧
    findRow (download now fid s).2.db fid = none ∧
    (download now fid s).2.fs = s.fs ∧
    view_file now fid s = (ViewOutcome.page false, s) := by
  have hdl : download now fid s =
      (DlOutcome.notFound, delete_row_only fid s) := by
    rw [download, h1]
    simp [h2, h3]
  refine ⟨by rw [hdl], by rw [hdl], ?_,
    by rw [hdl]; simp [delete_row_only], ?_⟩
  · rw [hdl]
    exact findRow_deleteRows_self s.db fid
  · rw [view_file, h1]
    simp [h2]

/-- Claim C5 witness: a concrete non-expired row with a missing file. -/
theorem download_missing_file_purges_witness :
    findRow (ServerState.mk [wRec] []).db "a" = some wRec ∧
    expiredAt 10 wRec = false ∧
    hasFile (ServerState.mk [wRec] []).fs wRec.stored_name = false ∧
    ((download 10 "a" (ServerState.mk [wRec] [])).1 =
      DlOutcome.notFound ∧
    (download 10 "a" (ServerState.mk [wRec] [])).2 =
      delete_row_only "a" (ServerState.mk [wRec] []) ∧
    findRow (download 10 "a" (ServerState.mk [wRec] [])).2.db "a" = none ∧
    (download 10 "a" (ServerState.mk [wRec] [])).2.fs =
      (ServerState.mk [wRec] []).fs ∧
    view_file 10 "a" (ServerState.mk [wRec] []) =
      (ViewOutcome.page false, ServerState.mk [wRec] [])) :=
  ⟨by decide, by decide, by decide,
   download_missing_file_purges 10 "a" (ServerState.mk [wRec] []) wRec
     (by decide) (by decide) (by decide)⟩

/-- Claim C8: the recent listing is a pure read that returns at most 20
records ordered by created_at descending; it enforces no expiry, and in
particular a state exists whose already-expired record still appears in
the listing. -/
theorem recent_list_spec (s : ServerState) :
    (recent s).2 = s ∧
    (recent s).1.length ≤ 20 ∧
    List.Sorted createdDesc (recent s).1 ∧
    (∃ (s1 : ServerState) (r : ShareRecord) (now : Int),
      findRow s1.db r.id = some r ∧ expiredAt now r = true ∧
      r ∈ (recent s1).1) := by
  refine ⟨rfl, ?_, ?_, ?_⟩
  · show (listRecent s.db).length ≤ 20
    rw [listRecent]
    exact List.length_take_le 20 _
  · show List.Sorted createdDesc (listRecent s.db)
    rw [listRecent]
    exact List.Pairwise.sublist (List.take_sublist 20 _)
      (List.sorted_insertionSort createdDesc s.db)
  · refine ⟨ServerState.mk [{ wRec with expires_at := some 5 }] [],
      { wRec with expires_at := some 5 }, 10, by decide, by decide,
      by decide⟩

theorem findRow_upload_preserved (now : Int) (fid filename ext : String)
    (size : Nat) (mime : Option String) (expiresForm : Option Int)
    (mode : String) (saveOk : Bool) (s : ServerState) {id : String}
    {r : ShareRecord} (h1 : findRow s.db id = some r) :
    findRow
      (upload now fid filename ext size mime expiresForm mode saveOk s).2.db
      id = some r := by
  rw [upload]
  split
  · exact h1
  · split
    · exact h1
    · dsimp only
      split
      · exact h1
      · exact findRow_append_some h1 _

/-- Packaging of the downloads-counter conclusion in the case where the
record at the inspected id is unchanged and the operation is not a
download of that id. -/
theorem unchanged_counter_conclusion (op : Op) (s : ServerState)
    (id : String) (r r' : ShareRecord) (hr : r' = r)
    (hnotdl : ∀ now, op ≠ Op.dl now id) :
    r.downloads ≤ r'.downloads ∧
    (r'.downloads ≠ r.downloads → ∃ now, op = Op.dl now id ∧
      (download now id s).1 = DlOutcome.served ∧
      r'.downloads = r.downloads + 1) ∧
    (∀ now, op = Op.dl now id → (download now id s).1 = DlOutcome.served →
      r'.downloads = r.downloads + 1) := by
  subst hr
  exact ⟨le_refl _, fun hne => absurd rfl hne,
    fun now heq _ => absurd heq (hnotdl now)⟩

/-- Claim C6: across every operation of the HTTP surface, the downloads
counter of a record that persists never decreases; it changes only when
the operation is a served download of that very id, and then it increases
by exactly one. -/
theorem downloads_monotone (op : Op) (s : ServerState) (id : String)
    (r r' : ShareRecord) (h1 : findRow s.db id = some r)
    (h2 : findRow (step op s).db id = some r') :
    r.downloads ≤ r'.downloads ∧
    (r'.downloads ≠ r.downloads → ∃ now, op = Op.dl now id ∧
      (download now id s).1 = DlOutcome.served ∧
      r'.downloads = r.downloads + 1) ∧
    (∀ now, op = Op.dl now id → (download now id s).1 = DlOutcome.served →
      r'.downloads = r.downloads + 1) := by
  have hrid : r.id = id := findRow_id h1
  cases op with
  | uploadOp now2 fid2 filename ext size mime ef mode saveOk =>
    have hpres := findRow_upload_preserved now2 fid2 filename ext size mime
      ef mode saveOk s h1
    rw [show step (Op.uploadOp now2 fid2 filename ext size mime ef mode
      saveOk) s = (upload now2 fid2 filename ext size mime ef mode saveOk
      s).2 from rfl, hpres] at h2
    injection h2 with h2e
    exact unchanged_counter_conclusion _ s id r r' h2e.symm
      (fun now heq => Op.noConfusion heq)
  | recentOp =>
    rw [show step Op.recentOp s = s from rfl, h1] at h2
    injection h2 with h2e
    exact unchanged_counter_conclusion _ s id r r' h2e.symm
      (fun now heq => Op.noConfusion heq)
  | view now2 fid2 =>
    have hnotdl : ∀ now, Op.view now2 fid2 ≠ Op.dl now id :=
      fun now heq => Op.noConfusion heq
    cases hrow : findRow s.db fid2 with
    | none =>
      rw [show step (Op.view now2 fid2) s = (view_file now2 fid2 s).2 from
        rfl] at h2
      rw [view_file, hrow, h1] at h2
      injection h2 with h2e
      exact unchanged_counter_conclusion _ s id r r' h2e.symm hnotdl
    | some row =>
      have hrowid : row.id = fid2 := findRow_id hrow
      rw [show step (Op.view now2 fid2) s = (view_file now2 fid2 s).2 from
        rfl] at h2
      rw [view_file, hrow] at h2
      try dsimp only at h2
      cases hexp : expiredAt now2 row with
      | true =>
        rw [hexp, if_pos rfl] at h2
        try dsimp only at h2
        by_cases hfid : fid2 = id
        · subst hfid
          have hdel : findRow (delete_file_record row s).db fid2 = none := by
            show findRow (deleteRows s.db row.id) fid2 = none
            rw [hrowid]
            exact findRow_deleteRows_self _ _
          rw [hdel] at h2
          cases h2
        · have hdel : findRow (delete_file_record row s).db id =
              findRow s.db id := by
            show findRow (deleteRows s.db row.id) id = _
            rw [hrowid]
            exact findRow_deleteRows_ne (fun he => hfid he.symm) _
          rw [hdel, h1] at h2
          injection h2 with h2e
          exact unchanged_counter_conclusion _ s id r r' h2e.symm hnotdl
      | false =>
        rw [hexp, if_neg Bool.false_ne_true] at h2
        try dsimp only at h2
        rw [h1] at h2
        injection h2 with h2e
        exact unchanged_counter_conclusion _ s id r r' h2e.symm hnotdl
  | dl now2 fid2 =>
    rw [show step (Op.dl now2 fid2) s = (download now2 fid2 s).2 from
      rfl] at h2
    cases hrow : findRow s.db fid2 with
    | none =>
      have hfid : fid2 ≠ id := by
        intro he
        rw [he, h1] at hrow
        cases hrow
      rw [download, hrow, h1] at h2
      injection h2 with h2e
      refine unchanged_counter_conclusion _ s id r r' h2e.symm ?_
      intro now heq
      injection heq with hnow hfid2
      exact hfid hfid2
    | some row =>
      have hrowid : row.id = fid2 := findRow_id hrow
      rw [download, hrow] at h2
      try dsimp only at h2
      cases hexp : expiredAt now2 row with
      | true =>
        rw [hexp, if_pos rfl] at h2
        try dsimp only at h2
        by_cases hfid : fid2 = id
        · subst hfid
          have hdel : findRow (delete_file_record row s).db fid2 = none := by
            show findRow (deleteRows s.db row.id) fid2 = none
            rw [hrowid]
            exact findRow_deleteRows_self _ _
          rw [hdel] at h2
          cases h2
        · have hdel : findRow (delete_file_record row s).db id =
              findRow s.db id := by
            show findRow (deleteRows s.db row.id) id = _
            rw [hrowid]
            exact findRow_deleteRows_ne (fun he => hfid he.symm) _
          rw [hdel, h1] at h2
          injection h2 with h2e
          refine unchanged_counter_conclusion _ s id r r' h2e.symm ?_
          intro now heq
          injection heq with hnow hfid2
          exact hfid hfid2
      | false =>
        rw [hexp, if_neg Bool.false_ne_true] at h2
        try dsimp only at h2
        cases hfile : hasFile s.fs row.stored_name with
        | false =>
          rw [hfile, if_neg Bool.false_ne_true] at h2
          try dsimp only at h2
          by_cases hfid : fid2 = id
          · subst hfid
            have hdel : findRow (delete_row_only fid2 s).db fid2 = none :=
              findRow_deleteRows_self s.db fid2
            rw [hdel] at h2
            cases h2
          · have hdel : findRow (delete_row_only fid2 s).db id =
                findRow s.db id :=
              findRow_deleteRows_ne (fun he => hfid he.symm) s.db
            rw [hdel, h1] at h2
            injection h2 with h2e
            refine unchanged_counter_conclusion _ s id r r' h2e.symm ?_
            intro now heq
            injection heq with hnow hfid2
            exact hfid hfid2
        | true =>
          rw [hfile, if_pos rfl] at h2
          try dsimp only at h2
          cases hot : row.one_time with
          | true =>
            rw [hot, if_pos rfl] at h2
            try dsimp only at h2
            by_cases hfid : fid2 = id
            · subst hfid
              have hdel : findRow
                  (delete_file_record row (incrementDownloads fid2 s)).db
                  fid2 = none := by
                show findRow (deleteRows (incrementDownloads fid2 s).db
                  row.id) fid2 = none
                rw [hrowid]
                exact findRow_deleteRows_self _ _
              rw [hdel] at h2
              cases h2
            · have hdel : findRow
                  (delete_file_record row (incrementDownloads fid2 s)).db
                  id = findRow (incrementDownloads fid2 s).db id := by
                show findRow (deleteRows (incrementDownloads fid2 s).db
                  row.id) id = _
                rw [hrowid]
                exact findRow_deleteRows_ne (fun he => hfid he.symm) _
              have hinc : findRow (incrementDownloads fid2 s).db id =
                  some (bumpIf fid2 r) := by
                show findRow (s.db.map (bumpIf fid2)) id = _
                rw [findRow_map_bump, h1]
                rfl
              have hnobump : bumpIf fid2 r = r := by
                rw [bumpIf]
                rw [if_neg]
                simp only [beq_iff_eq, hrid]
                exact fun he => hfid he.symm
              rw [hdel, hinc, hnobump, ← h1, h1] at h2
              injection h2 with h2e
              refine unchanged_counter_conclusion _ s id r r' h2e.symm ?_
              intro now heq
              injection heq with hnow hfid2
              exact hfid hfid2
          | false =>
            rw [hot, if_neg Bool.false_ne_true] at h2
            try dsimp only at h2
            have hinc : findRow (incrementDownloads fid2 s).db id =
                some (bumpIf fid2 r) := by
              show findRow (s.db.map (bumpIf fid2)) id = _
              rw [findRow_map_bump, h1]
              rfl
            rw [hinc] at h2
            injection h2 with h2e
            by_cases hfid : fid2 = id
            · subst hfid
              have hbump : bumpIf fid2 r = { r with downloads :=
                  r.downloads + 1 } := by
                rw [bumpIf, if_pos]
                simp only [beq_iff_eq, hrid]
              have hserved : (download now2 fid2 s).1 = DlOutcome.served
                  := by
                rw [download, hrow]
                simp [hexp, hfile, hot]
              have hdn : r'.downloads = r.downloads + 1 := by
                rw [← h2e, hbump]
              refine ⟨?_, fun _ => ⟨now2, rfl, hserved, hdn⟩,
                fun now heq hs => hdn⟩
              rw [hdn]
              exact Nat.le_succ _
            · have hnobump : bumpIf fid2 r = r := by
                rw [bumpIf]
                rw [if_neg]
                simp only [beq_iff_eq, hrid]
                exact fun he => hfid he.symm
              rw [hnobump] at h2e
              refine unchanged_counter_conclusion _ s id r r' h2e.symm ?_
              intro now heq
              injection heq with hnow hfid2
              exact hfid hfid2

/-- Claim C6 witness: one served standard download takes the counter
from 0 to 1. -/
theorem downloads_monotone_witness :
    findRow (ServerState.mk [wRec] ["a.txt"]).db "a" = some wRec ∧
    findRow (step (Op.dl 0 "a") (ServerState.mk [wRec] ["a.txt"])).db "a" =
      some { wRec with downloads := 1 } ∧
    (wRec.downloads ≤
      ({ wRec with downloads := 1 } : ShareRecord).downloads ∧
    (({ wRec with downloads := 1 } : ShareRecord).downloads ≠
        wRec.downloads →
      ∃ now, Op.dl 0 "a" = Op.dl now "a" ∧
        (download now "a" (ServerState.mk [wRec] ["a.txt"])).1 =
          DlOutcome.served ∧
        ({ wRec with downloads := 1 } : ShareRecord).downloads =
          wRec.downloads + 1) ∧
    (∀ now, Op.dl 0 "a" = Op.dl now "a" →
      (download now "a" (ServerState.mk [wRec] ["a.txt"])).1 =
        DlOutcome.served →
      ({ wRec with downloads := 1 } : ShareRecord).downloads =
        wRec.downloads + 1)) :=
  ⟨by decide, by decide,
   downloads_monotone (Op.dl 0 "a") (ServerState.mk [wRec] ["a.txt"]) "a"
     wRec { wRec with downloads := 1 } (by decide) (by decide)⟩

end FileShare
